import Mathlib

/-!
Verification of the ICTTradingBuddy signal-and-lifecycle pipeline.

This file gives a shallow embedding, over exact rationals, of the core
algorithms of the repository: fair-value-gap detection and scoring (Fvg.py),
order-block detection and scoring (OrderBlocks.py), liquidity pools and sweep
scoring (LiquiditySweep.py), session confidence (SessionTimes.py), pressure
and fair-value-dislocation scoring and ATR (InnerCircleTradingUtils.py),
indicator scoring (ComputeIndicators.py), stop-loss (StopLoss.py), take-profit
(TakeProfit.py), entry derivation (EntryMaker.py), zone merging and the
recommendation pass (StratICT.py), the trade lifecycle (Trader.py) and the
tick-to-candle aggregator (CandleTracker.py).

Conventions:
* Prices, volumes and times are rationals; scores are integers.
* Python `round` (banker's rounding, ties to even) is `pyRound`.
* Python `None` becomes `Option.none`; trade directions and order-block kinds
  are the literal strings the source compares ("long"/"short",
  "bullish"/"bearish").
-/

/-- Python's `round` on a rational: round half to even (banker's rounding). -/
def pyRound (x : ℚ) : ℤ :=
  let f : ℤ := ⌊x⌋
  let r : ℚ := x - f
  if r < 1/2 then f
  else if 1/2 < r then f + 1
  else if Even f then f else f + 1

/-- Python's `round(x, n)`: round to `n` decimal places, ties to even. -/
def pyRoundTo (n : ℕ) (x : ℚ) : ℚ :=
  (pyRound (x * 10 ^ n) : ℚ) / 10 ^ n

/-- Python's `round` on a real argument (used only where the source applies
`math.tanh`): round half to even. -/
noncomputable def pyRoundR (x : ℝ) : ℤ :=
  let f : ℤ := ⌊x⌋
  let r : ℝ := x - f
  if r < 1/2 then f
  else if 1/2 < r then f + 1
  else if Even f then f else f + 1

/-- `max(-10, min(10, z))`, the clamp used throughout the scoring code. -/
def clamp10 (z : ℤ) : ℤ := max (-10) (min 10 z)

/-- A completed candle row: OHLCV plus the (nullable) indicator columns that
`CandleTracker.__init__` declares and `compute_indicators` backfills. -/
structure Candle where
  timeStart : ℚ := 0
  open_ : ℚ := 0
  close : ℚ := 0
  high : ℚ := 0
  low : ℚ := 0
  volume : ℚ := 0
  rsi14 : Option ℚ := none
  stochRsi : Option ℚ := none
  momentum9 : Option ℚ := none
  ema9 : Option ℚ := none
  ema20 : Option ℚ := none
  sma9 : Option ℚ := none
  sma20 : Option ℚ := none
  vwma20 : Option ℚ := none
  vwap : Option ℚ := none
  deriving Repr, DecidableEq

/-- The fields of the tick record that the scoring pass and the trade
lifecycle read.  `tsMinutesEastern` is the tick's time of day in US/Eastern
minutes (the quantity `SessionTimes` extracts from the timestamp string);
`tsSeconds` is the tick's absolute time in seconds (the quantity the trader
obtains from `datetime.strptime`). -/
structure Tick where
  last : ℚ := 0
  mark : ℚ := 0
  pressure : ℤ := 0
  fairValueDelta : Option ℚ := none
  tsMinutesEastern : ℚ := 0
  tsSeconds : ℚ := 0
  deriving Repr, DecidableEq

/-- The distinct string constants the source compares: trade directions
"long"/"short" and order-block kinds "bullish"/"bearish".  Distinct literals
are distinct values; `get_nearest_ob_range` comparing a block kind against a
direction (as `make_rec` does) is decidably false, exactly as in Python. -/
inductive Tag where
  | long
  | short
  | bullish
  | bearish
  deriving Repr, DecidableEq

/-- A zone dict holding `low`/`high` keys, with the optional `type` tag that
order-block dicts carry and merged zones lack. -/
structure Zone where
  low : ℚ
  high : ℚ
  type : Option Tag := none
  deriving Repr, DecidableEq

/-- The last row's close (`df.iloc[-1]["close"]`); the source indexes
unconditionally and is only called on non-empty histories. -/
def lastClose (df : List Candle) : ℚ := ((df.getLast?).map (·.close)).getD 0

/-- The last row of a history (`df.iloc[-1]`). -/
def lastCandle (df : List Candle) : Candle := (df.getLast?).getD {}

/-- One iteration of the gap scan in `Fvg._get_fvg_targets_`: for offset `i`
take `prev = df.iloc[-(i+1)]`, `mid = df.iloc[-i]`, `curr = df.iloc[-(i-1)]`
and emit the bullish gap `(mid.high, min(prev.low, curr.low))` for a
long-direction query, or the bearish gap `(max(prev.high, curr.high),
mid.low)` for a short-direction query. -/
def fvgAt (df : List Candle) (direction : Tag) (i : ℕ) : Option (ℚ × ℚ) :=
  let n := df.length
  match df.get? (n - (i+1)), df.get? (n - i), df.get? (n - (i-1)) with
  | some prev, some mid, some curr =>
    if prev.low > mid.high ∧ curr.low > mid.high ∧ direction = Tag.long then
      some (mid.high, min prev.low curr.low)
    else if prev.high < mid.low ∧ curr.high < mid.low ∧ direction = Tag.short then
      some (max prev.high curr.high, mid.low)
    else none
  | _, _, _ => none

/-- `Fvg._get_fvg_targets_`: scan offsets `i ∈ range(2, min(len(df),
max_lookback + 2))`, then sort the gaps by distance of their midpoint from the
last close (Python's stable sort). -/
def getFvgTargets (df : List Candle) (direction : Tag) (maxLookback : ℕ) :
    List (ℚ × ℚ) :=
  let n := df.length
  let fvgs := (List.range' 2 (min n (maxLookback + 2) - 2)).filterMap (fvgAt df direction)
  let lc := lastClose df
  fvgs.mergeSort (fun a b => decide (|(a.1 + a.2) / 2 - lc| ≤ |(b.1 + b.2) / 2 - lc|))

/-- `Fvg._score_fvg_`: ±2 per zone containing the price (inclusive bounds in
the source), then `max(-10, min(10, score if direction == "short" else
-score))`. -/
def scoreFvg (price : ℚ) (fvgZones : List (ℚ × ℚ)) (direction : Tag) : ℤ :=
  let score := fvgZones.foldl
    (fun s z => if z.1 ≤ price ∧ price ≤ z.2 then
                  s + (if direction = Tag.long then 2 else -2) else s) 0
  clamp10 (if direction = Tag.short then score else -score)

/-- An order-block dict as built by `OrderBlocks._detect_order_blocks_`:
`timestamp` is the prior candle's row label, `index` is `len(df) - i` (the
engulfing candle's position), and the range is the prior candle's. -/
structure OrderBlock where
  timestamp : ℚ
  type : Tag
  index : ℕ
  high : ℚ
  low : ℚ
  deriving Repr, DecidableEq

/-- The two-candle engulfing test at offset `i` (`prev = df.iloc[-(i+1)]`,
`curr = df.iloc[-i]`), without the validity scan. -/
def obPatternAt (df : List Candle) (i : ℕ) : Option OrderBlock :=
  let n := df.length
  match df.get? (n - (i+1)), df.get? (n - i) with
  | some prev, some curr =>
    if prev.close < prev.open_ ∧ curr.close > curr.open_ ∧ curr.close > prev.high then
      some ⟨prev.timeStart, Tag.bullish, n - i, prev.high, prev.low⟩
    else if prev.close > prev.open_ ∧ curr.close < curr.open_ ∧ curr.close < prev.low then
      some ⟨prev.timeStart, Tag.bearish, n - i, prev.high, prev.low⟩
    else none
  | _, _ => none

/-- One candle closing beyond a block's bound (the source's violation test:
bullish blocks die on `close < low`, bearish blocks on `close > high`). -/
def obCloseBeyond (ob : OrderBlock) (c : Candle) : Bool :=
  if ob.type = Tag.bullish then decide (c.close < ob.low)
  else if ob.type = Tag.bearish then decide (c.close > ob.high)
  else false

/-- The validity scan of `_detect_order_blocks_`: some candle at a position
in `range(ob_candle_idx + 1, len(df))` closes beyond the block's bound. -/
def obViolated (df : List Candle) (ob : OrderBlock) : Bool :=
  (df.drop (ob.index + 1)).any (obCloseBeyond ob)

/-- Pattern detection plus validity scan for a single offset. -/
def obDetectAt (df : List Candle) (i : ℕ) : Option OrderBlock :=
  match obPatternAt df i with
  | some ob => if obViolated df ob then none else some ob
  | none => none

/-- `OrderBlocks._detect_order_blocks_`: offsets `i ∈ range(1, min(len(df),
lookback))`, keeping only unviolated blocks. -/
def detectOrderBlocks (df : List Candle) (lookback : ℕ) : List OrderBlock :=
  (List.range' 1 (min df.length lookback - 1)).filterMap (obDetectAt df)

/-- `OrderBlocks._score_order_blocks_`: count bullish and bearish blocks whose
range contains the price, then `max(-10, min(10, (bearish - bullish) * 3))`. -/
def scoreOrderBlocks (price : ℚ) (orderBlocks : List OrderBlock) : ℤ :=
  let bullishHits := orderBlocks.countP
    (fun ob => decide (ob.low ≤ price ∧ price ≤ ob.high ∧ ob.type = Tag.bullish))
  let bearishHits := orderBlocks.countP
    (fun ob => decide (ob.low ≤ price ∧ price ≤ ob.high ∧ ob.type = Tag.bearish))
  clamp10 (((bearishHits : ℤ) - bullishHits) * 3)

/-- `OrderBlocks._get_nearest_ob_range_` over zone dicts: keep zones whose
`type` tag equals the requested direction, sort by midpoint distance, return
`(high, low)` of the head. -/
def getNearestObRange (obs : List Zone) (lastPrice : ℚ) (direction : Tag) :
    Option (ℚ × ℚ) :=
  let candidates := obs.filter (fun z => decide (z.type = some direction))
  match (candidates.mergeSort (fun a b =>
      decide (|(a.high + a.low) / 2 - lastPrice| ≤ |(b.high + b.low) / 2 - lastPrice|))).head? with
  | some z => some (z.high, z.low)
  | none => none

/-- `LiquiditySweep._get_liquidity_pools`: round the tail's lows (long) or
highs (short) to two decimals, group levels within the tolerance (skipping
already-visited levels), qualify groups of at least `group_size` by their
mean, then keep pools on the favorable side of the last close, sorted
descending for long queries and ascending for short ones. -/
def getLiquidityPools (df : List Candle) (direction : Tag) (tolerance : ℚ)
    (lookback : ℕ) (groupSize : ℕ) : List ℚ :=
  let lb := min lookback df.length
  let prices := df.drop (df.length - lb)
  let levels := prices.map (fun c => pyRoundTo 2 (if direction = Tag.long then c.low else c.high))
  let pools := (levels.foldl (fun (acc : List ℚ × List ℚ) price =>
      if price ∈ acc.2 then acc
      else
        let similar := levels.filter (fun l => decide (|l - price| ≤ tolerance))
        if groupSize ≤ similar.length then
          (acc.1 ++ [similar.sum / similar.length], acc.2 ++ similar)
        else acc) ([], [])).1
  let lp := lastClose df
  if direction = Tag.long then
    (pools.filter (fun p => decide (p < lp))).mergeSort (fun a b => decide (b ≤ a))
  else
    (pools.filter (fun p => decide (p > lp))).mergeSort (fun a b => decide (a ≤ b))

/-- `LiquiditySweep._score_liquidity_sweep_`: compare the prior and last close
against each pool level; 3 points per sweep, `min(10, ...)` for short-side
queries and `max(-10, -...)` otherwise. -/
def scoreLiquiditySweep (df : List Candle) (direction : Tag) (pools : List ℚ) : ℤ :=
  if pools = [] then 0
  else
    let lastPrice := lastClose df
    let priorPrice := if 1 < df.length then
        (((df.get? (df.length - 2)).map (·.close)).getD lastPrice) else lastPrice
    let swept : ℕ := pools.countP (fun level =>
      if direction = Tag.long then decide (priorPrice > level ∧ lastPrice < level)
      else if direction = Tag.short then decide (priorPrice < level ∧ lastPrice > level)
      else false)
    if direction = Tag.short then min 10 ((swept : ℤ) * 3) else max (-10) (-((swept : ℤ) * 3))

/-- `SessionTimes._ict_scalping_confidence_`, on the tick's US/Eastern time of
day expressed in minutes (9:30 = 570, 10:30 = 630, 11:30 = 690, 14:00 = 840,
16:15 = 975); the timezone conversion itself lives in the excluded
string/pytz layer. -/
def ictScalpingConfidence (tMinutes : ℚ) : ℤ :=
  if 570 ≤ tMinutes ∧ tMinutes ≤ 630 then 10
  else if 630 < tMinutes ∧ tMinutes ≤ 690 then 7
  else if 690 < tMinutes ∧ tMinutes ≤ 840 then 4
  else if 840 < tMinutes ∧ tMinutes ≤ 975 then 6
  else 2

/-- `InnerCircleTradingUtils.score_pressure_bias`: `max(-10, min(10,
pressure))`; the tick's pressure field is `int(bid_size - ask_size)`. -/
def scorePressureBias (pressure : ℤ) : ℤ := max (-10) (min 10 pressure)

/-- `InnerCircleTradingUtils.score_fv_dislocation` with the default scale 0.4:
`0` when the delta is missing, else `round(-10 * tanh(0.4 * fv_delta))`. -/
noncomputable def scoreFvDislocation (fvDelta : Option ℚ) : ℤ :=
  match fvDelta with
  | none => 0
  | some d => pyRoundR ((-10) * Real.tanh ((2/5) * (d : ℝ)))

/-- The per-indicator sub-signal dictionary `_get_inds_` builds alongside the
score. -/
structure Subindicators where
  rsi : ℤ
  stochRsi : ℤ
  momentum : ℤ
  emaCross : ℤ
  vwapPosition : ℤ
  deriving Repr, DecidableEq

/-- `ComputeIndicators._get_inds_`.  Note the source's `or`-defaults: a
missing *or zero* RSI falls back to 50 and a missing or zero stochastic RSI to
0.5 (Python `x or default` treats 0 as missing); a missing momentum falls back
to 0.  Returns the pair `(max(-10, min(10, score)), subindicators)` exactly as
the source does. -/
def getInds (candle : Candle) : ℤ × Subindicators :=
  let rsi : ℚ := match candle.rsi14 with
    | none => 50
    | some v => if v = 0 then 50 else v
  let stoch : ℚ := match candle.stochRsi with
    | none => 1/2
    | some v => if v = 0 then 1/2 else v
  let momentum : ℚ := match candle.momentum9 with
    | none => 0
    | some v => v
  let p1 : ℤ × ℤ := if rsi < 30 then (2, 1) else if rsi > 70 then (-2, -1) else (0, 0)
  let p2 : ℤ × ℤ := if stoch < 1/5 then (2, 1) else if stoch > 4/5 then (-2, -1) else (0, 0)
  let p3 : ℤ × ℤ := if momentum > 0 then (2, 1) else if momentum < 0 then (-2, -1) else (0, 0)
  let p4 : ℤ × ℤ := match candle.ema9, candle.ema20 with
    | some f, some s => if f > s then (2, 1) else if f < s then (-2, -1) else (0, 0)
    | _, _ => (0, 0)
  let p5 : ℤ × ℤ := match candle.vwap with
    | some w => if candle.close > w then (2, 1) else if candle.close < w then (-2, -1) else (0, 0)
    | none => (0, 0)
  (clamp10 (p1.1 + p2.1 + p3.1 + p4.1 + p5.1), ⟨p1.2, p2.2, p3.2, p4.2, p5.2⟩)

/-- `StratICT.score_volume_spike`: 0 for short histories or a zero average,
else the capped volume ratio mapped linearly onto [0, 10]. -/
def scoreVolumeSpike (df : List Candle) : ℤ :=
  if df.length < 4 then 0
  else
    let currentVol := (lastCandle df).volume
    let last3 := (df.drop (df.length - 4)).take 3
    let avgVol := (last3.map (·.volume)).sum / 3
    if avgVol = 0 then 0
    else
      let r := currentVol / avgVol
      let scaled := min r 2
      let score := pyRound ((scaled - 1) * 10)
      max 0 (min score 10)

/-- One row of the history after `get_atr` has written its two columns. -/
structure AtrRow where
  base : Candle
  previousClose : Option ℚ
  tr : ℚ
  deriving Repr, DecidableEq

/-- The per-row true range of `get_atr`.  The first row's `previous_close` is
missing (NaN); Python's builtin `max` keeps its first argument when every
later comparison involves NaN, so that row's `tr` is `high - low`. -/
def trOf (pc : Option ℚ) (c : Candle) : ℚ :=
  match pc with
  | none => c.high - c.low
  | some p => max (c.high - c.low) (max |c.high - p| |c.low - p|)

/-- Builds the `previous_close`/`tr` columns row by row, threading the close
of the preceding row (the `shift(1)`). -/
def atrRowsAux : Option ℚ → List Candle → List AtrRow
  | _, [] => []
  | pc, c :: rest => ⟨c, pc, trOf pc c⟩ :: atrRowsAux (some c.close) rest

/-- The history as mutated in place by `get_atr`. -/
def getAtrFrame (df : List Candle) : List AtrRow := atrRowsAux none df

/-- `InnerCircleTradingUtils.get_atr`: returns the mutated frame together
with the ATR value — the 5-period rolling mean of `tr` at the last row when
the history has at least 5 rows (no `tr` entry is ever NaN), else the
fallback 10; rounded to one decimal. -/
def getAtr (df : List Candle) : List AtrRow × ℚ :=
  let frame := getAtrFrame df
  let trs := frame.map (·.tr)
  let val : ℚ :=
    if 5 ≤ df.length then pyRoundTo 1 ((trs.drop (trs.length - 5)).sum / 5)
    else pyRoundTo 1 10
  (frame, val)

/-- `StopLoss._stop_loss_helper_`.  The candidate stop passes, in order,
through the order-block edge (`ob_range` is `(high, low)`), the liquidity
pools on the adverse side of entry (their `high` values in both directions,
as in the source), the first FVG edge (only when nothing else produced a
stop), and — when `atr` is truthy, i.e. nonzero — the `entry ∓ 0.5*atr`
fallback followed by `min`/`max` against `entry ∓ 2*atr`.  `none` models the
path on which the source's `sl` is still Python `None` at the final
`round(4 * sl) / 4` (a `TypeError` in the source). -/
def stopLossHelper (entryPrice : ℚ) (direction : Tag) (obRange : Option (ℚ × ℚ))
    (liquidityPools : List Zone) (fvgZones : List (ℚ × ℚ)) (atr : ℚ) : Option ℚ :=
  let sl0 : Option ℚ := match obRange with
    | some ob => some (if direction = Tag.long then ob.2 - 1/4 else ob.1 + 1/4)
    | none => none
  let relevant := (liquidityPools.filter (fun p =>
      if direction = Tag.long then decide (p.high < entryPrice)
      else decide (p.high > entryPrice))).map (·.high)
  let sl1 : Option ℚ := match relevant with
    | [] => sl0
    | r :: rs =>
      let liqSl := if direction = Tag.long then rs.foldl min r - 1/4 else rs.foldl max r + 1/4
      match sl0 with
      | none => some liqSl
      | some s => if (if direction = Tag.long then liqSl < s else liqSl > s) then some liqSl else some s
  let sl2 : Option ℚ := match sl1 with
    | none => match fvgZones with
      | [] => none
      | f :: _ => some (if direction = Tag.long then f.1 - 1/4 else f.2 + 1/4)
    | some s => some s
  let sl3 : Option ℚ :=
    if atr ≠ 0 then
      let fallback := if direction = Tag.long then entryPrice - atr/2 else entryPrice + atr/2
      let s := match sl2 with
        | none => fallback
        | some s => if direction = Tag.long then min s fallback else max s fallback
      let maxOffset := 2 * atr
      some (if direction = Tag.long then min s (entryPrice - maxOffset)
            else max s (entryPrice + maxOffset))
    else sl2
  sl3.map (fun s => (pyRound (4 * s) : ℚ) / 4)

/-- `df["low"].rolling(5).min().iloc[-1]`: defined only once the history has
at least 5 rows (NaN otherwise). -/
def rollingMin5Low (df : List Candle) : Option ℚ :=
  if df.length < 5 then none else ((df.drop (df.length - 5)).map (·.low)).min?

/-- `df["high"].rolling(5).max().iloc[-1]`. -/
def rollingMax5High (df : List Candle) : Option ℚ :=
  if df.length < 5 then none else ((df.drop (df.length - 5)).map (·.high)).max?

/-- `StopLoss._get_stop_loss_`: the structural stop (5-candle rolling extreme
offset by 0.25) combined with the helper's composite stop via `min` (long) or
`max` (short).  `none` covers both a NaN structural extreme (which poisons
the `min`/`max` in the source) and the helper's error path. -/
def getStopLoss (df : List Candle) (entryPrice : ℚ) (direction : Tag)
    (obRange : Option (ℚ × ℚ)) (fvgZones : List (ℚ × ℚ)) (atr : ℚ)
    (liqPools : List Zone) : Option ℚ :=
  let structureExtreme := if direction = Tag.long then rollingMin5Low df else rollingMax5High df
  match structureExtreme, stopLossHelper entryPrice direction obRange liqPools fvgZones atr with
  | some st, some sl =>
    let structureSl := if direction = Tag.long then st - 1/4 else st + 1/4
    some (if direction = Tag.long then min structureSl sl else max structureSl sl)
  | _, _ => none

/-- `TakeProfit._get_take_profit_`. -/
def getTakeProfit (entryPrice : ℚ) (direction : Tag) (obRange : Option (ℚ × ℚ))
    (fvgTargets : List (ℚ × ℚ)) (liqPools : List Zone) (atr : ℚ)
    (vwap : Option ℚ) : ℚ :=
  let r : ℚ := match obRange with
    | some ob => |entryPrice - (if direction = Tag.long then ob.2 else ob.1)|
    | none => 5
  let tp0 := if direction = Tag.long then entryPrice + 3/2 * r else entryPrice - 3/2 * r
  let tp1 := match fvgTargets.find? (fun f =>
      if direction = Tag.long then decide (f.1 > entryPrice ∧ f.1 < tp0)
      else if direction = Tag.short then decide (f.2 < entryPrice ∧ f.2 > tp0)
      else false) with
    | some f => if direction = Tag.long then f.1 else f.2
    | none => tp0
  let tp2 := match liqPools.find? (fun p =>
      if direction = Tag.long then decide (p.high > entryPrice ∧ p.high < tp1)
      else if direction = Tag.short then decide (p.low < entryPrice ∧ p.low > tp1)
      else false) with
    | some p => if direction = Tag.long then p.high - 1/4 else p.low + 1/4
    | none => tp1
  let tp3 := match vwap with
    | some w => if w ≠ 0 then (if direction = Tag.long then min tp2 w else max tp2 w) else tp2
    | none => tp2
  let tp4 :=
    if direction = Tag.long ∧ tp3 < entryPrice then entryPrice + 3 * atr
    else if direction = Tag.short ∧ tp3 > entryPrice then entryPrice - 3 * atr
    else tp3
  let maxMove := 4 * atr
  let tp5 := if direction = Tag.long then min tp4 (entryPrice + maxMove)
             else max tp4 (entryPrice - maxMove)
  (pyRound (4 * tp5) : ℚ) / 4

/-- `EntryMaker._get_entry_price_`: average the available anchors (mark, last,
order-block edge, first-FVG edge, favorable VWAP), then clip to 0.5*ATR from
mark and round to the quarter point.  The `if vwap:`/`last and` truthiness
tests of the source become explicit nonzero guards. -/
def getEntryPrice (lastCloseV : ℚ) (tick : Tick) (direction : Tag)
    (fvgZones : List (ℚ × ℚ)) (orderBlocks : List Zone) (atr : ℚ)
    (vwap : Option ℚ) : ℚ :=
  let mark := tick.mark
  let last := tick.last
  let tradeSign : ℚ := if direction = Tag.long then 1 else -1
  let ob := orderBlocks.find? (fun z => decide (z.low < lastCloseV ∧ lastCloseV < z.high))
  let obEntry : Option ℚ := ob.map (fun z =>
    if direction = Tag.long then z.low + 1/4 else z.high - 1/4)
  let fvgEntry : Option ℚ := match fvgZones with
    | [] => none
    | f :: _ =>
      if direction = Tag.long ∧ f.1 < lastCloseV then some (f.1 + 1/4)
      else if direction = Tag.short ∧ f.2 > lastCloseV then some (f.2 - 1/4)
      else none
  let vwapEntry : Option ℚ := match vwap with
    | some w =>
      if w ≠ 0 then
        (if direction = Tag.long ∧ last ≠ 0 ∧ w < last then some w
         else if direction = Tag.short ∧ last ≠ 0 ∧ w > last then some w
         else none)
      else none
    | none => none
  let candidates := [some mark, some last, obEntry, fvgEntry, vwapEntry].filterMap id
  if candidates.length = 0 then lastCloseV
  else
    let proposed := candidates.sum / candidates.length
    let maxOffset := atr / 2
    if |proposed - mark| ≤ maxOffset then (pyRound (4 * proposed) : ℚ) / 4
    else (pyRound (4 * (tradeSign * maxOffset + mark)) : ℚ) / 4

/-- `StratICT.merge_zones` on a list of zone dicts (its first `isinstance`
case): a non-empty input collapses to the single envelope zone
`{low: min(lows), high: max(highs)}` (which carries no `type` tag), an empty
input yields `[]`.  Every zone dict the strategy passes here has both keys. -/
def mergeZones (zones : List Zone) : List Zone :=
  match zones with
  | [] => []
  | z :: zs => [⟨(zs.map (·.low)).foldl min z.low, (zs.map (·.high)).foldl max z.high, none⟩]

/-- Elements of a list at even positions (`zones[0::2]`). -/
def evenIdx : List ℚ → List ℚ
  | [] => []
  | x :: xs =>
    x :: match xs with
    | [] => []
    | _ :: rest => evenIdx rest

/-- Elements of a list at odd positions (`zones[1::2]`). -/
def oddIdx : List ℚ → List ℚ
  | [] => []
  | _ :: xs => evenIdx xs

/-- `StratICT.merge_zones` on a flat list of numbers (its second `isinstance`
case, used for the liquidity-pool level lists): even positions are lows, odd
positions are highs; if either projection is empty the result is `[]`. -/
def mergeZonesFlat (zones : List ℚ) : List Zone :=
  match evenIdx zones, oddIdx zones with
  | [], _ => []
  | _, [] => []
  | l :: ls, h :: hs => [⟨ls.foldl min l, hs.foldl max h, none⟩]

/-- `StratICT.merge_zones` on a list of `(low, high)` tuples (the FVG lists):
a non-empty tuple list matches neither `isinstance` case and the source falls
off the end returning Python `None`; an empty list returns `[]`.  Both are
falsy to every consumer (`if fvg_zones:`), modelled uniformly as `[]`. -/
def mergeZonesTuples (_zones : List (ℚ × ℚ)) : List Zone := []

/-- `StratICT.get_num_contracts`. -/
def getNumContracts (rec : ℤ) : ℕ :=
  if |rec| > 8 then 3 else if |rec| > 5 then 2 else 1

/-- `StratICT.get_timeout`; `get_atr` always returns a number, so the
`atr_val is None` branch of the source is unreachable from `make_rec`. -/
def getTimeout (atrVal : ℚ) : ℤ :=
  if atrVal > 50 then 120 else if atrVal > 20 then 180 else 300

/-- The mutable `Recommendation` object: `valid` is the dynamically-assigned
flag `make_rec` writes, the remaining fields start as Python `None` and are
written together by `update_trade` (which does not touch `valid`). -/
structure Recommendation where
  valid : Bool := true
  val : Option ℤ := none
  position : Option Tag := none
  entry : Option ℚ := none
  sl : Option ℚ := none
  tp : Option ℚ := none
  timestamp : Option ℚ := none
  timeout : Option ℤ := none
  numContracts : Option ℕ := none
  deriving Repr, DecidableEq

/-- `Recommendation.update_trade`: overwrites the trade fields, leaving
`valid` as it was. -/
def updateTrade (rec : Recommendation) (val : ℤ) (position : Tag) (entry : ℚ)
    (sl : Option ℚ) (tp : ℚ) (timestamp : ℚ) (timeout : ℤ) (numContracts : ℕ) :
    Recommendation :=
  { rec with val := some val, position := some position, entry := some entry,
             sl := sl, tp := some tp, timestamp := some timestamp,
             timeout := some timeout, numContracts := some numContracts }

/-- One element of the `components` list built at StratICT.py:88: six of the
seven entries are numbers, while `ind_score` is the *pair*
`(score, subindicators)` that `_get_inds_` returns and `StratICT.get_inds`
passes through unchanged. -/
inductive Component where
  | num : ℚ → Component
  | pair : ℤ × Subindicators → Component
  deriving Repr, DecidableEq

/-- Python's `sum(c for c in components if c is not None)` over the component
list (no component is ever `None`): numbers accumulate left to right, and
adding the `(score, subindicators)` pair to the running numeric total raises
`TypeError` — `int + tuple` is unsupported. -/
def pySumComponents : ℚ → List Component → Except String ℚ
  | acc, [] => Except.ok acc
  | acc, Component.num q :: rest => pySumComponents (acc + q) rest
  | _, Component.pair _ :: _ =>
      Except.error "TypeError: unsupported operand types int + tuple"

/-- The `components` list of `StratICT.make_rec`'s loop body, assembled
exactly as at StratICT.py:88: order-block score, strongest liquidity-sweep
score, strongest FVG score, pressure imbalance, fair-value dislocation, the
`ind_score` pair returned by `_get_inds_`, and the session/volume blend. -/
noncomputable def variantComponents (tick : Tick) (df : List Candle) : List Component :=
  let price := tick.last
  let orderBlocks := detectOrderBlocks df 20
  let liqShort := getLiquidityPools df Tag.short (1/4) 30 2
  let liqLong := getLiquidityPools df Tag.long (1/4) 30 2
  let fvgShort := getFvgTargets df Tag.short 20
  let fvgLong := getFvgTargets df Tag.long 20
  let ssS := scoreLiquiditySweep df Tag.short liqShort
  let ssL := scoreLiquiditySweep df Tag.long liqLong
  let sweepScore := let s := if |ssS| > 0 then ssS else 0
                    if |ssL| > |s| then ssL else s
  let sfS := scoreFvg price fvgShort Tag.short
  let sfL := scoreFvg price fvgLong Tag.long
  let fvgScore := let s := if |sfS| > 0 then sfS else 0
                  if |sfL| > |s| then sfL else s
  let obScore := scoreOrderBlocks price orderBlocks
  let imbalance := scorePressureBias tick.pressure
  let dislocation := scoreFvDislocation tick.fairValueDelta
  let indScore := getInds (lastCandle df)
  let session := ictScalpingConfidence tick.tsMinutesEastern
  let volumeSpike := scoreVolumeSpike df
  let sessionVolume : ℚ := (1/2) * (session : ℚ) + (1/2) * (volumeSpike : ℚ)
  [Component.num (obScore : ℚ), Component.num (sweepScore : ℚ),
   Component.num (fvgScore : ℚ), Component.num (imbalance : ℚ),
   Component.num (dislocation : ℚ), Component.pair indScore,
   Component.num sessionVolume]

/-- The per-variant composite of `StratICT.make_rec`'s loop body:
`int(round(sum(components) / len(components), 0))`.  Because `ind_score` is a
pair, the component sum always raises `TypeError` before the division, so no
variant ever yields a score; the `ok` arm (rounding the mean of seven
components) is the source's own dead continuation. -/
noncomputable def variantScore (tick : Tick) (df : List Candle) : Except String ℤ :=
  match pySumComponents 0 (variantComponents tick df) with
  | Except.ok s => Except.ok (pyRound (s / 7))
  | Except.error e => Except.error e

/-- The `for _, df in offset_dfs.items()` loop of `make_rec` collecting one
score per qualifying history; the first raised `TypeError` aborts the loop
and propagates. -/
noncomputable def collectScores (tick : Tick) : List (List Candle) → Except String (List ℤ)
  | [] => Except.ok []
  | df :: rest =>
    match variantScore tick df with
    | Except.error e => Except.error e
    | Except.ok s =>
      match collectScores tick rest with
      | Except.error e => Except.error e
      | Except.ok ss => Except.ok (s :: ss)

/-- `StratICT.make_rec`.  `trackers` is the offset → history map of the
1-minute candle manager.  With no history of at least `gatherTime` rows the
recommendation is marked invalid and the method returns normally.  Otherwise
the very first loop iteration raises `TypeError` while summing the component
list (`ind_score` is the pair `_get_inds_` returns), the exception
propagates out of `make_rec` — no caller catches it — and the recommendation
object is left untouched: `rec_val` is never computed, so the threshold test
against `entry_ratio_threshold`, the zone merging, the price-level
derivation and `update_trade` at StratICT.py:92-122 are dead code and are
not modelled; the `ok` arm below is accordingly unreachable (`collectScores`
fails on its first history — see `C1_scoring_pass_raises`). -/
noncomputable def makeRec (gatherTime : ℕ) (_threshold : ℚ)
    (trackers : List (ℕ × List Candle)) (tick : Tick) (rec : Recommendation) :
    Except String Recommendation :=
  let offsetDfs := (trackers.filter (fun p => decide (gatherTime ≤ p.2.length))).map (·.2)
  if offsetDfs = [] then Except.ok { rec with valid := false }
  else
    match collectScores tick offsetDfs with
    | Except.error e => Except.error e
    | Except.ok _ => Except.ok rec

/-- The mutable state of `Trader`.  In the source the trade fields start as
Python `None` and are only read after an entry assigned them; they are
modelled as inert plain values guarded by `inTrade`. -/
structure TraderState where
  inTrade : Bool := false
  tradeEntryTime : ℚ := 0
  entryPrice : ℚ := 0
  sl : ℚ := 0
  tp : ℚ := 0
  timeout : ℚ := 0
  position : Tag := Tag.long
  balance : ℚ := 10000
  deriving Repr, DecidableEq

/-- One row of the tick buffer, restricted to the columns `check_trading`
reads.  `confidence` and `entry` are nullable (NaN until a recommendation is
logged); a NaN `confidence` compares false against 0, as in the source. -/
structure BuffRow where
  confidence : Option ℚ := none
  entry : Option ℚ := none
  stopLoss : ℚ := 0
  takeProfit : ℚ := 0
  timeout : ℚ := 0
  deriving Repr, DecidableEq

/-- `Trader.check_trading`.  `histLen` is `len(buddy.candles[1].trackers[0].df)`
(the guard's history length); `tick.tsSeconds` stands for the parsed
timestamp; the buffer-result write on exit only records what the balance
update already captures.  The dead conjunct `df["confidence"] is not None`
(a pandas Series is never `None`) is dropped, so the `else` branch runs
exactly when a trade is open, as in the source. -/
def checkTrading (st : TraderState) (histLen dataGatherTime lookback : ℕ)
    (entryRatioThreshold pointsToDollars fee : ℚ) (tick : Tick)
    (buff : List BuffRow) : TraderState :=
  if histLen < dataGatherTime then st
  else
    let tail := buff.drop (buff.length - lookback)
    if st.inTrade = false then
      let confidences := tail.filterMap (·.confidence)
      if confidences ≠ [] ∧
          (confidences.map (fun c => |c|)).sum / confidences.length > entryRatioThreshold then
        match buff.getLast? with
        | some latest =>
          { st with inTrade := true, tradeEntryTime := tick.tsSeconds,
                    entryPrice := tick.last, sl := latest.stopLoss,
                    tp := latest.takeProfit, timeout := latest.timeout,
                    position := if 0 < latest.confidence.getD 0 then Tag.long else Tag.short }
        | none => st
      else st
    else
      let currentPrice := tick.last
      let elapsed := tick.tsSeconds - st.tradeEntryTime
      let exitTrade :=
        if elapsed ≥ st.timeout then true
        else if st.position = Tag.long ∧ currentPrice ≥ st.tp then true
        else if st.position = Tag.long ∧ currentPrice ≤ st.sl then true
        else if st.position = Tag.short ∧ currentPrice ≤ st.tp then true
        else if st.position = Tag.short ∧ currentPrice ≥ st.sl then true
        else false
      if exitTrade then
        let rev := pointsToDollars *
          (if st.position = Tag.long then currentPrice - st.entryPrice
           else st.entryPrice - currentPrice)
        { st with balance := st.balance + (rev - fee), inTrade := false }
      else st

/-- The mutable state of one `CandleTracker` (one duration/offset pair). -/
structure TrackerState where
  df : List Candle := []
  current : Option Candle := none
  lastVolume : Option ℚ := none
  deriving Repr, DecidableEq

/-- `self.df.loc[time_start] = row`: overwrite the row with that key if it
exists, else append. -/
def upsertRow (df : List Candle) (c : Candle) : List Candle :=
  if df.any (fun r => decide (r.timeStart = c.timeStart)) then
    df.map (fun r => if r.timeStart = c.timeStart then c else r)
  else df ++ [c]

/-- `CandleTracker.add_tick` for a tracker of `duration` minutes at `offset`
seconds; a tick is its (time in seconds, last price, cumulative volume).
The first tick ever seen contributes a zero volume delta; later ticks
contribute `max(volume - last_volume, 0)`.  The indicator recomputation the
source performs on the stored frame (`compute_indicators`, delegating to the
external `pandas_ta` package) backfills only the nullable indicator columns
of the most recent row and never touches the OHLCV fields, and is omitted. -/
def addTick (duration : ℕ) (offset : ℚ) (st : TrackerState)
    (tickTime tickPrice tickVolume : ℚ) : TrackerState :=
  let volumeDelta : ℚ := match st.lastVolume with
    | none => 0
    | some lv => max (tickVolume - lv) 0
  let durSec : ℚ := (duration : ℚ) * 60
  let candleStart := (⌊tickTime / durSec⌋ : ℚ) * durSec + offset
  let fresh : Candle :=
    { timeStart := candleStart, open_ := tickPrice, close := tickPrice,
      high := tickPrice, low := tickPrice, volume := volumeDelta }
  match st.current with
  | some cur =>
    if cur.timeStart = candleStart then
      { st with lastVolume := some tickVolume,
                current := some { cur with close := tickPrice,
                                           high := max cur.high tickPrice,
                                           low := min cur.low tickPrice,
                                           volume := cur.volume + volumeDelta } }
    else
      { df := upsertRow st.df cur, lastVolume := some tickVolume,
        current := some fresh }
  | none => { st with lastVolume := some tickVolume, current := some fresh }

/-- Folding a tick stream through one tracker. -/
def foldTicks (duration : ℕ) (offset : ℚ) (st : TrackerState)
    (ticks : List (ℚ × ℚ × ℚ)) : TrackerState :=
  ticks.foldl (fun s t => addTick duration offset s t.1 t.2.1 t.2.2) st

/-- A flat demonstration candle: open = close = 100, high = 101, low = 99,
volume 10, no indicator values. -/
def flatCandle (t : ℚ) : Candle :=
  { timeStart := t, open_ := 100, close := 100, high := 101, low := 99, volume := 10 }

/-- Five flat candles: enough history for the gather guard and the 5-period
rolling windows, with no order blocks, gaps or sweeps. -/
def flatHistory : List Candle :=
  [flatCandle 0, flatCandle 1, flatCandle 2, flatCandle 3, flatCandle 4]

/-- A neutral tick at price 100 with zero pressure and no fair-value delta,
outside the high-confidence session windows. -/
def flatTick : Tick := { last := 100, mark := 100 }

/-- Three candles forming a red-then-green engulfing pair (the red candle
spans low 10 to high 12) followed by a candle closing at 11, never below
10. -/
def obScenario : List Candle :=
  [{ timeStart := 0, open_ := 23/2, close := 21/2, high := 12, low := 10 },
   { timeStart := 1, open_ := 53/5, close := 25/2, high := 63/5, low := 21/2 },
   { timeStart := 2, open_ := 54/5, close := 11, high := 56/5, low := 107/10 }]

/-- The bullish block the scenario detects: range (10, 12) from the red
candle, `index` 1 (the engulfing candle's position). -/
def obScenarioBlock : OrderBlock :=
  { timestamp := 0, type := Tag.bullish, index := 1, high := 12, low := 10 }

/-- An open long position: entry 100, stop 95, target 110, 300-second
timeout. -/
def openLongState : TraderState :=
  { inTrade := true, tradeEntryTime := 0, entryPrice := 100, sl := 95, tp := 110,
    timeout := 300, position := Tag.long, balance := 10000 }

/-- A tick that reaches the open long position's take-profit. -/
def tpHitTick : Tick := { last := 110, tsSeconds := 10 }

/-- A flat trader state with the default starting balance. -/
def flatTraderState : TraderState := { balance := 10000 }

/-- A buffer whose most recent logged recommendation has confidence 5, a
projected entry of 99.5, stop 98, target 103 and a 300-second timeout. -/
def demoBuffer : List BuffRow :=
  [{ confidence := some 5, entry := some (199/2), stopLoss := 98,
     takeProfit := 103, timeout := 300 }]

/-- A tick whose last price (100) differs from the logged recommendation's
projected entry (99.5). -/
def entryTick : Tick := { last := 100, tsSeconds := 60 }

/-- The tick stream of the volume scenario: cumulative volumes
1000, 1000, 1050 inside one 1-minute window. -/
def volumeScenario : List (ℚ × ℚ × ℚ) :=
  [(0, 100, 1000), (10, 100, 1000), (20, 100, 1050)]

theorem tagNeLS : Tag.long ≠ Tag.short := by decide

theorem tagNeSL : Tag.short ≠ Tag.long := by decide

theorem tagNeBL : Tag.bullish ≠ Tag.long := by decide

theorem tagNeBS : Tag.bullish ≠ Tag.short := by decide

theorem tagNeRL : Tag.bearish ≠ Tag.long := by decide

theorem tagNeRS : Tag.bearish ≠ Tag.short := by decide

theorem tagNeBR : Tag.bullish ≠ Tag.bearish := by decide

theorem tagNeRB : Tag.bearish ≠ Tag.bullish := by decide

theorem noneNeSomeTrue : (none : Option Bool) ≠ some true := by decide

theorem floor_le_pyRound (x : ℚ) : ⌊x⌋ ≤ pyRound x := by
  simp only [pyRound]
  split_ifs <;> omega

theorem pyRound_le_ceil (x : ℚ) : pyRound x ≤ ⌈x⌉ := by
  have hfc : ⌊x⌋ ≤ ⌈x⌉ := Int.floor_le_ceil x
  simp only [pyRound]
  split_ifs with h1 h2 h3
  · exact hfc
  · have hx : (⌊x⌋ : ℚ) < x := by
      have : (0 : ℚ) < x - ⌊x⌋ := by linarith
      linarith
    have := Int.lt_ceil.2 hx
    omega
  · have hx : (⌊x⌋ : ℚ) < x := by
      have h12 : x - ⌊x⌋ = 1/2 := le_antisymm (not_lt.1 h2) (not_lt.1 h1)
      have : (0 : ℚ) < x - ⌊x⌋ := by rw [h12]; norm_num
      linarith
    have := Int.lt_ceil.2 hx
    omega
  · have hx : (⌊x⌋ : ℚ) < x := by
      have h12 : x - ⌊x⌋ = 1/2 := le_antisymm (not_lt.1 h2) (not_lt.1 h1)
      have : (0 : ℚ) < x - ⌊x⌋ := by rw [h12]; norm_num
      linarith
    have := Int.lt_ceil.2 hx
    omega

theorem pyRound_le (x : ℚ) (b : ℤ) (h : x ≤ (b : ℚ)) : pyRound x ≤ b :=
  le_trans (pyRound_le_ceil x) (Int.ceil_le.2 h)

theorem le_pyRound (b : ℤ) (x : ℚ) (h : (b : ℚ) ≤ x) : b ≤ pyRound x :=
  le_trans (Int.le_floor.2 h) (floor_le_pyRound x)

theorem clamp10_lb (z : ℤ) : -10 ≤ clamp10 z := le_max_left _ _

theorem clamp10_ub (z : ℤ) : clamp10 z ≤ 10 :=
  max_le (by norm_num) (min_le_left _ _)

theorem scoreLiquiditySweep_bounds (df : List Candle) (d : Tag) (pools : List ℚ) :
    -10 ≤ scoreLiquiditySweep df d pools ∧ scoreLiquiditySweep df d pools ≤ 10 := by
  simp only [scoreLiquiditySweep]
  split_ifs <;> (try norm_num) <;> omega

theorem scoreOrderBlocks_bounds (price : ℚ) (obs : List OrderBlock) :
    -10 ≤ scoreOrderBlocks price obs ∧ scoreOrderBlocks price obs ≤ 10 :=
  ⟨clamp10_lb _, clamp10_ub _⟩

theorem scoreFvg_bounds (price : ℚ) (zones : List (ℚ × ℚ)) (d : Tag) :
    -10 ≤ scoreFvg price zones d ∧ scoreFvg price zones d ≤ 10 :=
  ⟨clamp10_lb _, clamp10_ub _⟩

theorem getInds_bounds (c : Candle) : -10 ≤ (getInds c).1 ∧ (getInds c).1 ≤ 10 :=
  ⟨clamp10_lb _, clamp10_ub _⟩

theorem scorePressureBias_bounds (p : ℤ) :
    -10 ≤ scorePressureBias p ∧ scorePressureBias p ≤ 10 :=
  ⟨le_max_left _ _, max_le (by norm_num) (min_le_left _ _)⟩

/-- C2 (refuted as stated): with a positive ATR of 10 and entry 100, a long
stop-loss computed from an order block spanning (high 90, low 50) comes out
at 49.75, which lies 50.25 > 2×ATR = 20 points below entry: the composite
stop is *not* bounded within 2×ATR of entry.  The final bounding step of
`_stop_loss_helper_` takes `min(sl, entry - 2*atr)` for a long trade (and the
mirror `max` for a short), which *forces the stop at least 2×ATR away* instead
of capping it — the opposite of the documented bound (the variable is even
named `max_offset`). -/
theorem C2_stop_loss_exceeds_two_atr :
    stopLossHelper 100 Tag.long (some (90, 50)) [] [] 10 = some (199/4) ∧
    ¬(100 - 199/4 ≤ (2 : ℚ) * 10) := by
  constructor
  · norm_num [stopLossHelper, pyRound]
  · norm_num

/-- C3 (refuted as stated): for price 11 inside the single gap (10, 12), the
long-direction FVG score and the short-direction FVG score are both −2 — the
polarity is *not* inverted between directions (the long branch accumulates +2
per hit and then negates the total; the short branch accumulates −2 per hit
and returns it unnegated, so both produce the same value).  Moreover the
containment test is inclusive, not strict: the boundary price 10 also scores
−2 in both directions. -/
theorem C3_fvg_polarity_not_inverted :
    scoreFvg 11 [(10, 12)] Tag.long = -2 ∧
    scoreFvg 11 [(10, 12)] Tag.short = -2 ∧
    scoreFvg 10 [(10, 12)] Tag.long = -2 ∧
    scoreFvg 10 [(10, 12)] Tag.short = -2 := by
  refine ⟨?_, ?_, ?_, ?_⟩ <;> norm_num [scoreFvg, clamp10, tagNeSL, tagNeLS]

theorem foldl_min_le_start (l : List ℚ) (a : ℚ) : l.foldl min a ≤ a := by
  induction l generalizing a with
  | nil => exact le_refl a
  | cons x xs ih => exact le_trans (ih (min a x)) (min_le_left a x)

theorem foldl_min_le_mem (l : List ℚ) (a : ℚ) : ∀ x ∈ l, l.foldl min a ≤ x := by
  induction l generalizing a with
  | nil => intro x hx; cases hx
  | cons y ys ih =>
    intro x hx
    rcases List.mem_cons.1 hx with h | h
    · subst h
      exact le_trans (foldl_min_le_start ys (min a x)) (min_le_right a x)
    · exact ih (min a y) x h

theorem foldl_min_eq_start_or_mem (l : List ℚ) (a : ℚ) :
    l.foldl min a = a ∨ l.foldl min a ∈ l := by
  induction l generalizing a with
  | nil => exact Or.inl rfl
  | cons x xs ih =>
    rcases ih (min a x) with h | h
    · rcases min_choice a x with hm | hm
      · exact Or.inl (by rw [List.foldl_cons, h, hm])
      · exact Or.inr (by rw [List.foldl_cons, h, hm]; exact List.mem_cons_self x xs)
    · exact Or.inr (List.mem_cons_of_mem x h)

theorem le_foldl_max_start (l : List ℚ) (a : ℚ) : a ≤ l.foldl max a := by
  induction l generalizing a with
  | nil => exact le_refl a
  | cons x xs ih => exact le_trans (le_max_left a x) (ih (max a x))

theorem mem_le_foldl_max (l : List ℚ) (a : ℚ) : ∀ x ∈ l, x ≤ l.foldl max a := by
  induction l generalizing a with
  | nil => intro x hx; cases hx
  | cons y ys ih =>
    intro x hx
    rcases List.mem_cons.1 hx with h | h
    · subst h
      exact le_trans (le_max_right a x) (le_foldl_max_start ys (max a x))
    · exact ih (max a y) x h

theorem foldl_max_eq_start_or_mem (l : List ℚ) (a : ℚ) :
    l.foldl max a = a ∨ l.foldl max a ∈ l := by
  induction l generalizing a with
  | nil => exact Or.inl rfl
  | cons x xs ih =>
    rcases ih (max a x) with h | h
    · rcases max_choice a x with hm | hm
      · exact Or.inl (by rw [List.foldl_cons, h, hm])
      · exact Or.inr (by rw [List.foldl_cons, h, hm]; exact List.mem_cons_self x xs)
    · exact Or.inr (List.mem_cons_of_mem x h)

/-- C9 (counterexample to the claim as stated): merging a list containing a
single *tagged* zone — as every order-block zone is — does not return that
zone unchanged: the merged envelope carries no `type` tag (the source builds
a fresh `{"low", "high"}` dict, dropping every other key). -/
theorem C9_counterexample_tag_dropped :
    mergeZones [{ low := 10, high := 12, type := some Tag.bullish }] ≠
      [{ low := 10, high := 12, type := some Tag.bullish }] := by
  simp [mergeZones]

/-- C9 (amended): merging a non-empty list of zones yields exactly one zone,
whose low is the minimum of the inputs' lows and whose high is the maximum of
the inputs' highs, and which carries no type tag; merging a single zone
therefore returns a zone with that zone's low and high — the zone itself,
unchanged, exactly when it was untagged; merging an empty list yields an
empty result. -/
theorem C9_merge_envelope :
    (∀ zs : List Zone, zs ≠ [] → ∃ u : Zone,
      mergeZones zs = [u] ∧ u.type = none ∧
      (∀ z ∈ zs, u.low ≤ z.low ∧ z.high ≤ u.high) ∧
      (∃ z ∈ zs, u.low = z.low) ∧ (∃ z ∈ zs, u.high = z.high))
    ∧ (∀ z : Zone, mergeZones [z] = [{ low := z.low, high := z.high, type := none }])
    ∧ (∀ z : Zone, z.type = none → mergeZones [z] = [z])
    ∧ mergeZones [] = [] := by
  refine ⟨?_, ?_, ?_, rfl⟩
  · intro zs hzs
    match zs with
    | z :: rest =>
      refine ⟨_, rfl, rfl, ?_, ?_, ?_⟩
      · intro w hw
        rcases List.mem_cons.1 hw with h | h
        · subst h
          exact ⟨foldl_min_le_start _ _, le_foldl_max_start _ _⟩
        · exact ⟨foldl_min_le_mem _ _ _ (List.mem_map_of_mem (·.low) h),
                 mem_le_foldl_max _ _ _ (List.mem_map_of_mem (·.high) h)⟩
      · rcases foldl_min_eq_start_or_mem (rest.map (·.low)) z.low with h | h
        · exact ⟨z, List.mem_cons_self _ _, h⟩
        · rcases List.mem_map.1 h with ⟨w, hw, hweq⟩
          exact ⟨w, List.mem_cons_of_mem z hw, hweq.symm⟩
      · rcases foldl_max_eq_start_or_mem (rest.map (·.high)) z.high with h | h
        · exact ⟨z, List.mem_cons_self _ _, h⟩
        · rcases List.mem_map.1 h with ⟨w, hw, hweq⟩
          exact ⟨w, List.mem_cons_of_mem z hw, hweq.symm⟩
  · intro z
    simp [mergeZones]
  · intro z hz
    cases z with
    | mk lo hi ty =>
      cases hz
      simp [mergeZones]

/-- Witness for the amended C9 at a concrete two-zone list. -/
theorem C9_merge_envelope_witness :
    ∃ u : Zone,
      mergeZones [{ low := 3, high := 7 }, { low := 1, high := 5 }] = [u] ∧
      u.type = none ∧
      (∀ z ∈ [({ low := 3, high := 7 } : Zone), { low := 1, high := 5 }],
        u.low ≤ z.low ∧ z.high ≤ u.high) ∧
      (∃ z ∈ [({ low := 3, high := 7 } : Zone), { low := 1, high := 5 }], u.low = z.low) ∧
      (∃ z ∈ [({ low := 3, high := 7 } : Zone), { low := 1, high := 5 }], u.high = z.high) :=
  C9_merge_envelope.1 [{ low := 3, high := 7 }, { low := 1, high := 5 }] (by simp)


theorem obPatternAt_spec (df : List Candle) (i : ℕ) (ob : OrderBlock)
    (h : obPatternAt df i = some ob) :
    ∃ prev curr, df.get? (df.length - (i+1)) = some prev ∧
      df.get? (df.length - i) = some curr ∧
      ob.index = df.length - i ∧ ob.high = prev.high ∧ ob.low = prev.low ∧
      ((ob.type = Tag.bullish ∧ curr.close > prev.high) ∨
       (ob.type = Tag.bearish ∧ curr.close < prev.low)) := by
  simp only [obPatternAt] at h
  rcases h1 : df.get? (df.length - (i+1)) with _ | prev <;> rw [h1] at h
  · simp at h
  · rcases h2 : df.get? (df.length - i) with _ | curr <;> rw [h2] at h
    · simp at h
    · dsimp only at h
      split_ifs at h with hb1 hb2
      · injection h with h'
        subst h'
        exact ⟨prev, curr, rfl, rfl, rfl, rfl, rfl, Or.inl ⟨rfl, hb1.2.2⟩⟩
      · injection h with h'
        subst h'
        exact ⟨prev, curr, rfl, rfl, rfl, rfl, rfl, Or.inr ⟨rfl, hb2.2.2⟩⟩

theorem scDetect1 : obDetectAt obScenario 1 = none := by
  norm_num [obDetectAt, obPatternAt, obScenario]

theorem scDetect2 : obDetectAt obScenario 2 = some obScenarioBlock := by
  norm_num [obDetectAt, obPatternAt, obViolated, obCloseBeyond, obScenario, obScenarioBlock]

theorem scDetectAll : detectOrderBlocks obScenario 20 = [obScenarioBlock] := by
  have hlen : obScenario.length = 3 := by norm_num [obScenario]
  rw [detectOrderBlocks, hlen]
  norm_num [List.range']
  rw [List.filterMap_cons, scDetect1, List.filterMap_cons, scDetect2, List.filterMap_nil]

theorem dropSucc_subset (df : List Candle) (k : ℕ) : df.drop (k + 1) ⊆ df.drop k := by
  intro x hx
  apply List.drop_subset 1 (df.drop k)
  rw [List.drop_drop]
  exact hx

/-- C4: (1) soundness — every order block the detector returns has no candle
at a later position in the full history (any position after the block candle
itself) closing beyond its bound, assuming well-formed candles (low ≤ high);
(2) completeness — a two-candle engulfing pattern inside the lookback window
whose bound no later candle closes beyond is returned; (3) the concrete
red-then-green scenario (block low 10, high 12, never later closed below 10)
is returned and yields the nonzero score −3 for price 11. -/
theorem C4_order_block_invalidation :
    (∀ (df : List Candle) (lookback : ℕ),
      (∀ c ∈ df, c.low ≤ c.high) →
      ∀ ob ∈ detectOrderBlocks df lookback,
        ∀ c ∈ df.drop ob.index, obCloseBeyond ob c = false)
    ∧ (∀ (df : List Candle) (lookback i : ℕ) (ob : OrderBlock),
        1 ≤ i → i < min df.length lookback → obPatternAt df i = some ob →
        (∀ c ∈ df.drop ob.index, obCloseBeyond ob c = false) →
        ob ∈ detectOrderBlocks df lookback)
    ∧ detectOrderBlocks obScenario 20 = [obScenarioBlock]
    ∧ scoreOrderBlocks 11 (detectOrderBlocks obScenario 20) = -3 := by
  refine ⟨?_, ?_, scDetectAll, ?_⟩
  · intro df lookback hwf ob hob c hc
    rcases List.mem_filterMap.1 hob with ⟨i, _, hdet⟩
    simp only [obDetectAt] at hdet
    rcases hp : obPatternAt df i with _ | ob' <;> rw [hp] at hdet
    · simp at hdet
    · dsimp only at hdet
      simp at hdet
      obtain ⟨hv, rfl⟩ := hdet
      rcases obPatternAt_spec df i ob' hp with
        ⟨prev, curr, hprev, hcurr, hidx, hhigh, hlow, hdir⟩
      have hcurrlt : df.length - i < df.length := by
        by_contra hcon
        rw [List.get?_eq_getElem?, List.getElem?_eq_none (by omega)] at hcurr
        exact Option.noConfusion hcurr
      have hdropcons : df.drop ob'.index = df[df.length - i] :: df.drop (df.length - i + 1) := by
        rw [hidx]
        exact List.drop_eq_getElem_cons hcurrlt
      have hcurrval : df[df.length - i] = curr := by
        rw [List.get?_eq_getElem?] at hcurr
        rcases List.getElem?_eq_some_iff.1 hcurr with ⟨h', hval⟩
        exact hval
      rw [hdropcons] at hc
      rcases List.mem_cons.1 hc with hhead | htail
      · subst hhead
        rw [hcurrval]
        have hwfprev : prev.low ≤ prev.high := hwf prev (List.get?_mem hprev)
        rcases hdir with ⟨hty, hgt⟩ | ⟨hty, hlt⟩
        · have hred : obCloseBeyond ob' curr = decide (curr.close < ob'.low) := by
            simp [obCloseBeyond, hty]
          rw [hred, decide_eq_false_iff_not, not_lt, hlow]
          linarith
        · have hred : obCloseBeyond ob' curr = decide (curr.close > ob'.high) := by
            simp [obCloseBeyond, hty, tagNeRB]
          rw [hred, decide_eq_false_iff_not, not_lt, hhigh]
          linarith
      · have hall := List.any_eq_false.1 hv c (by rw [hidx]; exact htail)
        simpa using hall
  · intro df lookback i ob h1 h2 hp hnv
    unfold detectOrderBlocks
    apply List.mem_filterMap.2
    refine ⟨i, ?_, ?_⟩
    · rw [List.mem_range'_1]
      omega
    · simp only [obDetectAt, hp]
      have hnoviol : obViolated df ob = false := by
        apply List.any_eq_false.2
        intro c hc
        rw [hnv c (dropSucc_subset df ob.index hc)]
        simp
      rw [hnoviol]
      simp
  · rw [scDetectAll]
    norm_num [scoreOrderBlocks, obScenarioBlock, clamp10, tagNeBR]

/-- Witness for C4 at the scenario history: its invalidation clause applied
to the concretely detected block. -/
theorem C4_order_block_invalidation_witness :
    ∀ c ∈ obScenario.drop obScenarioBlock.index,
      obCloseBeyond obScenarioBlock c = false := by
  have h := C4_order_block_invalidation
  exact h.1 obScenario 20 (by norm_num [obScenario]) obScenarioBlock
    (by rw [h.2.2.1]; exact List.mem_singleton.2 rfl)

/-- C5: while a position is open (and the history guard passes, as it always
does once a trade was entered), the lifecycle step closes the position iff
elapsed time reaches the timeout, or price reaches take-profit, or price
reaches stop-loss; on that close the balance changes by exactly the
direction-signed price difference times the points-to-currency factor minus
the fixed round-trip fee; and on every step that does not close a position —
flat steps included — the balance is unchanged. -/
theorem C5_exit_transition :
    (∀ (st : TraderState) (histLen gather lookback : ℕ) (θ p2d fee : ℚ)
       (tick : Tick) (buff : List BuffRow),
      st.inTrade = true → gather ≤ histLen →
      ((checkTrading st histLen gather lookback θ p2d fee tick buff).inTrade = false ↔
        (tick.tsSeconds - st.tradeEntryTime ≥ st.timeout ∨
         (st.position = Tag.long ∧ tick.last ≥ st.tp) ∨
         (st.position = Tag.long ∧ tick.last ≤ st.sl) ∨
         (st.position = Tag.short ∧ tick.last ≤ st.tp) ∨
         (st.position = Tag.short ∧ tick.last ≥ st.sl))) ∧
      ((checkTrading st histLen gather lookback θ p2d fee tick buff).inTrade = false →
        (checkTrading st histLen gather lookback θ p2d fee tick buff).balance =
          st.balance +
            (p2d * (if st.position = Tag.long then tick.last - st.entryPrice
                    else st.entryPrice - tick.last) - fee)))
    ∧ (∀ (st : TraderState) (histLen gather lookback : ℕ) (θ p2d fee : ℚ)
         (tick : Tick) (buff : List BuffRow),
        ¬(st.inTrade = true ∧
          (checkTrading st histLen gather lookback θ p2d fee tick buff).inTrade = false) →
        (checkTrading st histLen gather lookback θ p2d fee tick buff).balance = st.balance) := by
  constructor
  · intro st histLen gather lookback θ p2d fee tick buff hin hg
    simp only [checkTrading, if_neg (Nat.not_lt.2 hg), hin]
    norm_num
    split_ifs <;> simp_all
  · intro st histLen gather lookback θ p2d fee tick buff hnc
    cases hin : st.inTrade with
    | false =>
      simp only [checkTrading, hin]
      split_ifs <;> try rfl
      cases buff.getLast? <;> rfl
    | true =>
      simp only [checkTrading, hin] at hnc ⊢
      split_ifs at hnc ⊢ <;> simp_all

/-- Witness for C5: a concrete take-profit exit of the open long position at
110 adds 2×(110−100)−2 = 18 to the balance. -/
theorem C5_exit_transition_witness :
    (checkTrading openLongState 5 5 10 2 2 2 tpHitTick []).inTrade = false ∧
    (checkTrading openLongState 5 5 10 2 2 2 tpHitTick []).balance = 10018 := by
  have h := C5_exit_transition.1 openLongState 5 5 10 2 2 2 tpHitTick [] (by rfl) (by norm_num)
  have hexit : (checkTrading openLongState 5 5 10 2 2 2 tpHitTick []).inTrade = false :=
    h.1.2 (Or.inr (Or.inl ⟨rfl, by norm_num [openLongState, tpHitTick]⟩))
  refine ⟨hexit, ?_⟩
  rw [h.2 hexit]
  norm_num [openLongState, tpHitTick]

/-- C6 (counterexample to the claim as stated): on a Flat→InPosition
transition the captured entry price is the *tick's last price*, not the most
recent logged recommendation's projected entry: with the latest logged row
carrying entry 99.5 and the tick trading at 100, the transition fires and
captures 100. -/
theorem C6_counterexample :
    (checkTrading flatTraderState 5 5 10 2 2 2 entryTick demoBuffer).inTrade = true ∧
    (checkTrading flatTraderState 5 5 10 2 2 2 entryTick demoBuffer).entryPrice = 100 ∧
    demoBuffer.getLast? =
      some { confidence := some 5, entry := some (199/2),
             stopLoss := 98, takeProfit := 103, timeout := 300 } ∧
    some (checkTrading flatTraderState 5 5 10 2 2 2 entryTick demoBuffer).entryPrice ≠
      some ((199 : ℚ)/2) := by
  norm_num [checkTrading, flatTraderState, entryTick, demoBuffer,
    List.filterMap_cons, List.filterMap_nil]

/-- C6 (amended): a Flat→InPosition transition happens exactly when no
position is open and the mean of the absolute non-null confidence values over
the last N buffer rows exceeds the entry threshold; at the transition the
stop-loss, take-profit and timeout are captured from the most recent logged
row, the direction is long exactly when that row's confidence is positive,
and the captured entry price is the current tick's last price (not the
logged recommendation's projected entry). -/
theorem C6_entry_transition (st : TraderState) (histLen gather lookback : ℕ)
    (θ p2d fee : ℚ) (tick : Tick) (buff : List BuffRow)
    (hflat : st.inTrade = false) (hg : gather ≤ histLen) :
    ((checkTrading st histLen gather lookback θ p2d fee tick buff).inTrade = true ↔
      ((buff.drop (buff.length - lookback)).filterMap (·.confidence) ≠ [] ∧
        (((buff.drop (buff.length - lookback)).filterMap (·.confidence)).map
            (fun c => |c|)).sum /
          ((buff.drop (buff.length - lookback)).filterMap (·.confidence)).length > θ))
    ∧ (∀ latest, buff.getLast? = some latest →
        (checkTrading st histLen gather lookback θ p2d fee tick buff).inTrade = true →
        (checkTrading st histLen gather lookback θ p2d fee tick buff).entryPrice = tick.last ∧
        (checkTrading st histLen gather lookback θ p2d fee tick buff).sl = latest.stopLoss ∧
        (checkTrading st histLen gather lookback θ p2d fee tick buff).tp = latest.takeProfit ∧
        (checkTrading st histLen gather lookback θ p2d fee tick buff).timeout = latest.timeout ∧
        (checkTrading st histLen gather lookback θ p2d fee tick buff).position =
          (if 0 < latest.confidence.getD 0 then Tag.long else Tag.short) ∧
        (checkTrading st histLen gather lookback θ p2d fee tick buff).tradeEntryTime =
          tick.tsSeconds) := by
  have hguard : ¬histLen < gather := Nat.not_lt.2 hg
  constructor
  · simp only [checkTrading, if_neg hguard, hflat, eq_self_iff_true, if_true]
    by_cases hcond : (buff.drop (buff.length - lookback)).filterMap (·.confidence) ≠ [] ∧
        (((buff.drop (buff.length - lookback)).filterMap (·.confidence)).map
            (fun c => |c|)).sum /
          ((buff.drop (buff.length - lookback)).filterMap (·.confidence)).length > θ
    · rw [if_pos hcond]
      have hbne : buff ≠ [] := by
        intro hb
        apply hcond.1
        rw [hb]
        simp
      rcases hl : buff.getLast? with _ | latest
      · exact absurd (List.getLast?_isSome.2 hbne) (by rw [hl]; simp)
      · exact iff_of_true rfl hcond
    · rw [if_neg hcond, hflat]
      simp only [Bool.false_eq_true, false_iff]
      exact hcond
  · intro latest hlatest hin
    by_cases hcond : (buff.drop (buff.length - lookback)).filterMap (·.confidence) ≠ [] ∧
        (((buff.drop (buff.length - lookback)).filterMap (·.confidence)).map
            (fun c => |c|)).sum /
          ((buff.drop (buff.length - lookback)).filterMap (·.confidence)).length > θ
    · simp only [checkTrading, if_neg hguard, hflat, eq_self_iff_true, if_true] at hin ⊢
      rw [if_pos hcond, hlatest] at hin ⊢
      exact ⟨rfl, rfl, rfl, rfl, rfl, rfl⟩
    · exfalso
      simp only [checkTrading, if_neg hguard, hflat, eq_self_iff_true, if_true] at hin
      rw [if_neg hcond, hflat] at hin
      exact Bool.false_ne_true hin

/-- Witness for the amended C6 at the demo buffer: the transition captures
the tick's last price and the logged row's stop, target and direction. -/
theorem C6_entry_transition_witness :
    (checkTrading flatTraderState 5 5 10 2 2 2 entryTick demoBuffer).entryPrice =
      entryTick.last ∧
    (checkTrading flatTraderState 5 5 10 2 2 2 entryTick demoBuffer).sl = 98 ∧
    (checkTrading flatTraderState 5 5 10 2 2 2 entryTick demoBuffer).tp = 103 ∧
    (checkTrading flatTraderState 5 5 10 2 2 2 entryTick demoBuffer).position = Tag.long := by
  have hin : (checkTrading flatTraderState 5 5 10 2 2 2 entryTick demoBuffer).inTrade = true := by
    norm_num [checkTrading, flatTraderState, entryTick, demoBuffer,
      List.filterMap_cons, List.filterMap_nil]
  have h := (C6_entry_transition flatTraderState 5 5 10 2 2 2 entryTick demoBuffer rfl
      (le_refl 5)).2
    { confidence := some 5, entry := some (199/2), stopLoss := 98, takeProfit := 103,
      timeout := 300 }
    (by norm_num [demoBuffer]) hin
  obtain ⟨h1, h2, h3, h4, h5, h6⟩ := h
  refine ⟨h1, ?_, ?_, ?_⟩
  · rw [h2]
  · rw [h3]
  · rw [h5]
    norm_num

theorem mem_upsertRow (df : List Candle) (x c : Candle) (h : c ∈ upsertRow df x) :
    c ∈ df ∨ c = x := by
  simp only [upsertRow] at h
  split_ifs at h
  · rcases List.mem_map.1 h with ⟨r, hr, hre⟩
    by_cases hts : r.timeStart = x.timeStart
    · right
      rw [if_pos hts] at hre
      exact hre.symm
    · left
      rw [if_neg hts] at hre
      rw [← hre]
      exact hr
  · rcases List.mem_append.1 h with h' | h'
    · exact Or.inl h'
    · exact Or.inr (List.mem_singleton.1 h')

theorem addTick_inv (duration : ℕ) (offset tTime tPrice tVol : ℚ) (st : TrackerState)
    (h1 : ∀ c ∈ st.df, 0 ≤ c.volume) (h2 : ∀ c, st.current = some c → 0 ≤ c.volume) :
    (∀ c ∈ (addTick duration offset st tTime tPrice tVol).df, 0 ≤ c.volume) ∧
    (∀ c, (addTick duration offset st tTime tPrice tVol).current = some c → 0 ≤ c.volume) := by
  have hdelta : (0:ℚ) ≤ match st.lastVolume with
      | none => (0:ℚ)
      | some lv => max (tVol - lv) 0 := by
    rcases st.lastVolume with _ | lv
    · exact le_refl 0
    · exact le_max_right _ _
  simp only [addTick]
  rcases hcur : st.current with _ | cur
  · dsimp only
    refine ⟨h1, ?_⟩
    intro c hc
    simp only [Option.some.injEq] at hc
    rw [← hc]
    exact hdelta
  · dsimp only
    split_ifs with hts
    · refine ⟨h1, ?_⟩
      intro c hc
      simp only [Option.some.injEq] at hc
      rw [← hc]
      have := h2 cur hcur
      exact add_nonneg this hdelta
    · constructor
      · intro c hc
        rcases mem_upsertRow st.df cur c hc with h | h
        · exact h1 c h
        · rw [h]
          exact h2 cur hcur
      · intro c hc
        simp only [Option.some.injEq] at hc
        rw [← hc]
        exact hdelta

theorem foldTicks_inv (duration : ℕ) (offset : ℚ) (ticks : List (ℚ × ℚ × ℚ)) :
    ∀ st : TrackerState,
      ((∀ c ∈ st.df, 0 ≤ c.volume) ∧ (∀ c, st.current = some c → 0 ≤ c.volume)) →
      ((∀ c ∈ (foldTicks duration offset st ticks).df, 0 ≤ c.volume) ∧
       (∀ c, (foldTicks duration offset st ticks).current = some c → 0 ≤ c.volume)) := by
  induction ticks with
  | nil => intro st h; exact h
  | cons t ts ih =>
    intro st h
    exact ih (addTick duration offset st t.1 t.2.1 t.2.2)
      (addTick_inv duration offset t.1 t.2.1 t.2.2 st h.1 h.2)

/-- C7: every candle volume produced by the aggregator — finalized rows and
the open candle alike — is nonnegative, for every tick stream: each tick's
volume delta is `max(cumulative - previous_cumulative, 0)` and the very first
tick's delta is zero; and the scenario stream with cumulative volumes
[1000, 1000, 1050] inside one 1-minute window yields a candle volume of
exactly 50. -/
theorem C7_candle_volume_nonneg :
    (∀ (duration : ℕ) (offset : ℚ) (ticks : List (ℚ × ℚ × ℚ)),
      (∀ c ∈ (foldTicks duration offset {} ticks).df, 0 ≤ c.volume) ∧
      (∀ c, (foldTicks duration offset {} ticks).current = some c → 0 ≤ c.volume))
    ∧ (foldTicks 1 0 {} volumeScenario).current.map (·.volume) = some 50 := by
  constructor
  · intro duration offset ticks
    apply foldTicks_inv
    constructor
    · intro c hc
      cases hc
    · intro c hc
      cases hc
  · norm_num [foldTicks, volumeScenario, addTick]

/-- Witness for C7: the invariant applied to the concretely aggregated
scenario candle, whose volume evaluates to 50. -/
theorem C7_candle_volume_nonneg_witness : (0 : ℚ) ≤ 50 := by
  have h := C7_candle_volume_nonneg
  rcases hc : (foldTicks 1 0 {} volumeScenario).current with _ | c
  · norm_num
  · have h50 : c.volume = 50 := by
      have := h.2
      rw [hc] at this
      simpa using this
    have := (h.1 1 0 volumeScenario).2 c hc
    rw [h50] at this
    exact this

theorem atrRowsAux_map_base (pc : Option ℚ) (df : List Candle) :
    (atrRowsAux pc df).map (·.base) = df := by
  induction df generalizing pc with
  | nil => rfl
  | cons c rest ih => simp [atrRowsAux, ih]

theorem atrRowsAux_length (pc : Option ℚ) (df : List Candle) :
    (atrRowsAux pc df).length = df.length := by
  induction df generalizing pc with
  | nil => rfl
  | cons c rest ih => simp [atrRowsAux, ih]

theorem atrRowsAux_get?_zero (pc : Option ℚ) (df : List Candle) (r : AtrRow)
    (h : (atrRowsAux pc df).get? 0 = some r) : r.previousClose = pc := by
  cases df with
  | nil => simp [atrRowsAux] at h
  | cons c rest =>
    simp only [atrRowsAux, List.get?] at h
    injection h with h'
    rw [← h']

theorem atrRowsAux_get?_succ (df : List Candle) :
    ∀ (pc : Option ℚ) (i : ℕ) (r : AtrRow) (c : Candle),
      (atrRowsAux pc df).get? (i+1) = some r → df.get? i = some c →
      r.previousClose = some c.close := by
  induction df with
  | nil => intro pc i r c h _; simp [atrRowsAux] at h
  | cons d rest ih =>
    intro pc i r c h hc
    simp only [atrRowsAux, List.get?] at h
    cases i with
    | zero =>
      simp only [List.get?] at hc
      injection hc with hc'
      rw [← hc']
      exact atrRowsAux_get?_zero (some d.close) rest r h
    | succ j =>
      simp only [List.get?] at hc
      exact ih (some d.close) j r c h hc

theorem atrRowsAux_get?_tr (df : List Candle) :
    ∀ (pc : Option ℚ) (i : ℕ) (r : AtrRow) (c : Candle),
      (atrRowsAux pc df).get? i = some r → df.get? i = some c →
      r.base = c ∧ r.tr = trOf r.previousClose c := by
  induction df with
  | nil => intro pc i r c h _; simp [atrRowsAux] at h
  | cons d rest ih =>
    intro pc i r c h hc
    cases i with
    | zero =>
      simp only [atrRowsAux, List.get?] at h hc
      injection h with h'
      injection hc with hc'
      rw [← h', ← hc']
      exact ⟨rfl, rfl⟩
    | succ j =>
      simp only [atrRowsAux, List.get?] at h hc
      exact ih (some d.close) j r c h hc

/-- C10: `get_atr` returns the history with exactly the two derived columns
added — every pre-existing field of every row is unchanged (`base` projection
is the input history, same length), `previous_close` is the close shifted by
one row (absent on the first row), `tr` is the true range computed from the
row and its `previous_close` — together with the ATR value: the rounded
5-period rolling mean of `tr` at the last row when at least 5 rows exist (no
`tr` value is ever missing, so the rolling mean is defined exactly then),
and the fallback 10 otherwise. -/
theorem C10_get_atr_frame_effect (df : List Candle) :
    ((getAtr df).1.map (·.base) = df)
    ∧ ((getAtr df).1.length = df.length)
    ∧ (∀ r, (getAtr df).1.get? 0 = some r → r.previousClose = none)
    ∧ (∀ i r c, (getAtr df).1.get? (i+1) = some r → df.get? i = some c →
        r.previousClose = some c.close)
    ∧ (∀ i r c, (getAtr df).1.get? i = some r → df.get? i = some c →
        r.base = c ∧ r.tr = trOf r.previousClose c)
    ∧ ((getAtr df).2 = if 5 ≤ df.length
        then pyRoundTo 1 ((((getAtr df).1.map (·.tr)).drop (df.length - 5)).sum / 5)
        else 10) := by
  refine ⟨atrRowsAux_map_base none df, atrRowsAux_length none df,
    fun r h => atrRowsAux_get?_zero none df r h,
    fun i r c h hc => atrRowsAux_get?_succ df none i r c h hc,
    fun i r c h hc => atrRowsAux_get?_tr df none i r c h hc, ?_⟩
  simp only [getAtr, getAtrFrame]
  have hlen : ((atrRowsAux none df).map (·.tr)).length = df.length := by
    rw [List.length_map, atrRowsAux_length]
  rw [hlen]
  split_ifs with h
  · rfl
  · norm_num [pyRoundTo, pyRound]

/-- Witness for C10 at the flat 5-candle history: the second row's
`previous_close` is the first row's close. -/
theorem C10_get_atr_frame_effect_witness :
    ∃ r : AtrRow, (getAtr flatHistory).1.get? 1 = some r ∧ r.previousClose = some 100 := by
  have h := C10_get_atr_frame_effect flatHistory
  have hr : (getAtr flatHistory).1.get? 1 =
      some { base := flatCandle 1, previousClose := some 100, tr := 2 } := by
    norm_num [getAtr, getAtrFrame, atrRowsAux, trOf, flatHistory, flatCandle]
  refine ⟨_, hr, ?_⟩
  have := h.2.2.2.1 0 { base := flatCandle 1, previousClose := some 100, tr := 2 }
    (flatCandle 0) hr (by norm_num [flatHistory])
  rw [this]
  norm_num [flatCandle]

theorem variantScore_raises (tick : Tick) (df : List Candle) :
    variantScore tick df =
      Except.error "TypeError: unsupported operand types int + tuple" := rfl

theorem collectScores_raises (tick : Tick) (df : List Candle) (rest : List (List Candle)) :
    collectScores tick (df :: rest) =
      Except.error "TypeError: unsupported operand types int + tuple" := rfl

/-- C8: the four zone scores — order blocks, FVG, liquidity sweep, order-flow
pressure — and the indicator composite score are integers (ℤ-valued, as the
source wraps them in integer arithmetic) lying within [-10, 10] for every
input.  The per-variant composite, however, is never produced: the component
sum at StratICT.py:89 adds the `(score, subindicators)` pair `_get_inds_`
returns into the running integer total and raises `TypeError` on every
variant, so the scoring pass aborts before any composite exists. -/
theorem C8_scores_within_ten :
    (∀ (price : ℚ) (obs : List OrderBlock),
      -10 ≤ scoreOrderBlocks price obs ∧ scoreOrderBlocks price obs ≤ 10)
    ∧ (∀ (price : ℚ) (zones : List (ℚ × ℚ)) (d : Tag),
      -10 ≤ scoreFvg price zones d ∧ scoreFvg price zones d ≤ 10)
    ∧ (∀ (df : List Candle) (d : Tag) (pools : List ℚ),
      -10 ≤ scoreLiquiditySweep df d pools ∧ scoreLiquiditySweep df d pools ≤ 10)
    ∧ (∀ p : ℤ, -10 ≤ scorePressureBias p ∧ scorePressureBias p ≤ 10)
    ∧ (∀ c : Candle, -10 ≤ (getInds c).1 ∧ (getInds c).1 ≤ 10)
    ∧ (∀ (tick : Tick) (df : List Candle),
      variantScore tick df =
        Except.error "TypeError: unsupported operand types int + tuple") :=
  ⟨scoreOrderBlocks_bounds, scoreFvg_bounds, scoreLiquiditySweep_bounds,
   scorePressureBias_bounds, getInds_bounds, variantScore_raises⟩

/-- C1 (refuted as stated): a scoring pass in which `rec_val` lies inside
`[-threshold, threshold]` never occurs, because no scoring pass computes
`rec_val` at all.  Every variant's component sum raises `TypeError`
(`ind_score` is the pair `_get_inds_` returns), so on any pass with at least
one qualifying history — e.g. the flat 5-candle history with gather time 5
and threshold 2 — `make_rec` aborts with the exception: the recommendation
is *not* marked invalid and no field is written, contradicting the spec's
"recommendation is marked invalid and no trade action is taken".  Only the
insufficient-history path (no qualifying history) marks the recommendation
invalid and returns normally. -/
theorem C1_scoring_pass_raises :
    (∀ (tick : Tick) (df : List Candle) (rest : List (List Candle)),
      collectScores tick (df :: rest) =
        Except.error "TypeError: unsupported operand types int + tuple")
    ∧ makeRec 5 2 [(0, flatHistory)] flatTick {} =
        Except.error "TypeError: unsupported operand types int + tuple"
    ∧ makeRec 5 2 [] flatTick {} = Except.ok { valid := false } := by
  refine ⟨fun tick df rest => collectScores_raises tick df rest, ?_, ?_⟩
  · have hlen : flatHistory.length = 5 := by norm_num [flatHistory]
    simp only [makeRec, List.filter, hlen, List.lookup]
    norm_num [collectScores_raises]
  · simp [makeRec]
